import Mathlib

/-!
Verification development for the NCAAB second-half betting dashboard
(`dashboard.py`).  The Python source is embedded shallowly: strings are
Lean `String`s (lists of characters), Python floats are modelled as `ℚ`,
JSON dictionaries become structures with `Option` fields, fallible code
returns `Except`/`Option`.
-/

namespace Dashboard

/-! ### Generic string utilities (Python `in`, `lower`, `upper`, `strip`, ...) -/

/-- Python substring test `pat in s`, on character lists. -/
def listContains (pat : List Char) : List Char → Bool
  | [] => pat.isEmpty
  | c :: cs => pat.isPrefixOf (c :: cs) || listContains pat cs

/-- Python `pat in s` on strings. -/
def strContains (s pat : String) : Bool := listContains pat.data s.data

/-- Python `str.lower()` (ASCII, matching the data handled by the source). -/
def lowerStr (s : String) : String := ⟨s.data.map Char.toLower⟩

/-- Python `str.upper()` (ASCII). -/
def upperStr (s : String) : String := ⟨s.data.map Char.toUpper⟩

/-- The characters Python's `re` counts as whitespace (`\s`, ASCII). -/
def isPySpace (c : Char) : Bool :=
  c == ' ' || c == '\t' || c == '\n' || c == '\r' || c == Char.ofNat 11 || c == Char.ofNat 12

/-- Python `str.strip()`: drop whitespace from both ends. -/
def trimChars (s : List Char) : List Char :=
  ((s.dropWhile isPySpace).reverse.dropWhile isPySpace).reverse

/-- Python `str.strip()` on strings. -/
def stripStr (s : String) : String := ⟨trimChars s.data⟩

/-- Python `str.startswith(pat)`. -/
def startsWithStr (s pat : String) : Bool := pat.data.isPrefixOf s.data

/-- Python `x or y` for an optional string `x`: `None` and `""` are falsy. -/
def pyOrStr : Option String → String → String
  | some s, y => if s = "" then y else s
  | none, y => y

/-! ### Classifier keyword tables (module-level constants in the source) -/

/-- Keywords that indicate a field-goal attempt (non-free-throw). -/
def SHOT_KEYWORDS : List String :=
  ["jumper", "jump shot", "jumpshot", "layup", "dunk", "hook shot", "hookshot",
   "tip-in", "tip in", "putback", "2 pointer", "two pointer", "2pt",
   "three pointer", "3 pointer", "3pt", "three-point"]

/-- Phrases that positively indicate a turnover event. -/
def TURNOVER_POSITIVE_PHRASES : List String :=
  ["turnover by", "turnover on", "shot clock turnover", "team turnover",
   "lost ball turnover", "bad pass turnover", "traveling turnover",
   "offensive foul turnover", "backcourt turnover", "five second turnover",
   "three second turnover"]

/-- Phrases about turnovers that are commentary, not events. -/
def TURNOVER_IGNORE_PHRASES : List String :=
  ["points off turnovers", "turnover margin", "points via turnovers"]

/-! ### Text event classifier
The three `if` sections of the play loop in `compute_first_half_stats_from_pbp`,
as functions of the lowercased description `dl`. -/

/-- Free-throw attempt count for a description already known to contain
"free throw" (the `elif` chain of the source). -/
def freeThrowCount (dl : String) : Nat :=
  if strContains dl "both free throws" then 2
  else if strContains dl "all three free throws" || strContains dl "all 3 free throws" then 3
  else if strContains dl "three free throws" || strContains dl "3 free throws" then 3
  else if strContains dl "two free throws" || strContains dl "2 free throws" then 2
  else 1

/-- Increment of the `fta` counter contributed by one lowercased description. -/
def ftaInc (dl : String) : Nat :=
  if strContains dl "free throw" then freeThrowCount dl else 0

/-- Increment of the `fga` counter contributed by one lowercased description. -/
def fgaInc (dl : String) : Nat :=
  if (SHOT_KEYWORDS.any fun k => strContains dl k) && !strContains dl "free throw" then 1
  else 0

/-- Increment of the `turnovers` counter contributed by one lowercased
description (ignore phrases win, then positive phrases or a leading
"turnover"). -/
def toInc (dl : String) : Nat :=
  if strContains dl "turnover" then
    if TURNOVER_IGNORE_PHRASES.any (fun bad => strContains dl bad) then 0
    else if (TURNOVER_POSITIVE_PHRASES.any fun p => strContains dl p)
            || startsWithStr (stripStr dl) "turnover" then 1
    else 0
  else 0

/-! ### Betting evaluator (`evaluate_bet`) -/

/-- Result dictionary of `evaluate_bet`. -/
structure EvalResult where
  qualifies : Bool
  diff_line : ℚ
  score_diff : ℚ
  lean : String
  deriving Repr, DecidableEq

/-- `evaluate_bet`: GO/NO-GO rules plus the OVER/UNDER/NEUTRAL direction. -/
def evaluate_bet (integer_value home_pts_1h away_pts_1h derived_2h_line : ℚ) : EvalResult :=
  let diff_line := |integer_value - derived_2h_line|
  let score_diff := |home_pts_1h - away_pts_1h|
  let qualifies := decide (6 ≤ diff_line) && decide (score_diff < 11)
  let dir := if derived_2h_line < integer_value then "OVER"
    else if integer_value < derived_2h_line then "UNDER"
    else "NEUTRAL"
  { qualifies := qualifies, diff_line := diff_line, score_diff := score_diff, lean := dir }

/-! ### Play-by-play data model and first-half aggregator -/

/-- One play-by-play entry (`play.get(...)` fields used by the source). -/
structure Play where
  eventDescription : Option String := none
  visitorText : Option String := none
  homeText : Option String := none
  homeScore : Option Int := none
  visitorScore : Option Int := none
  deriving Repr, DecidableEq

/-- One period of the play-by-play feed. -/
structure Period where
  periodNumber : Option Int := none
  playbyplayStats : List Play := []
  deriving Repr, DecidableEq

/-- A parsed play-by-play body (`pbp_data`). -/
structure PbpData where
  periods : List Period := []
  deriving Repr, DecidableEq

/-- The dictionary returned by `compute_first_half_stats_from_pbp`. -/
structure HalfStats where
  fga : Nat
  fta : Nat
  turnovers : Nat
  home_pts_1h : Int
  away_pts_1h : Int
  integer : ℚ
  deriving Repr, DecidableEq

/-- Loop state of the play walk: the three counters and the running scores. -/
structure AggState where
  fga : Nat
  fta : Nat
  turnovers : Nat
  lastHome : Int
  lastVisitor : Int
  deriving Repr, DecidableEq

/-- The description actually classified for a play: `eventDescription`, with
`visitorText` / `homeText` as fallbacks when it is empty. -/
def playDesc (p : Play) : String :=
  let d := pyOrStr p.eventDescription ""
  if d = "" then pyOrStr p.visitorText (pyOrStr p.homeText "") else d

/-- One iteration of the play loop: update the running scores (carry-forward
when a score field is absent) and the three counters. -/
def stepPlay (st : AggState) (p : Play) : AggState :=
  let dl := lowerStr (playDesc p)
  { fga := st.fga + fgaInc dl
    fta := st.fta + ftaInc dl
    turnovers := st.turnovers + toInc dl
    lastHome := p.homeScore.getD st.lastHome
    lastVisitor := p.visitorScore.getD st.lastVisitor }

/-- Aggregate the ordered plays of the first half into `HalfStats`. -/
def computeStats (plays : List Play) : HalfStats :=
  let st := plays.foldl stepPlay ⟨0, 0, 0, 0, 0⟩
  { fga := st.fga
    fta := st.fta
    turnovers := st.turnovers
    home_pts_1h := st.lastHome
    away_pts_1h := st.lastVisitor
    integer := (st.fga : ℚ) + (st.fta : ℚ) / 2 + (st.turnovers : ℚ) }

/-- `str(p.get("periodNumber")) == "1"` for an integer-valued field. -/
def isFirstPeriod (p : Period) : Bool :=
  match p.periodNumber with
  | some n => n == 1
  | none => false

/-- `compute_first_half_stats_from_pbp`: locate period 1 and aggregate it. -/
def compute_first_half_stats_from_pbp (pbp : PbpData) : Option HalfStats :=
  if pbp.periods.isEmpty then none
  else
    match pbp.periods.find? isFirstPeriod with
    | none => none
    | some fh => some (computeStats fh.playbyplayStats)

/-! ### Team-name normalizer (`normalize_team_name`)
The source applies `re.sub` with word-boundary patterns.  `RegexAtom`
models one pattern character: a literal, or the metacharacter `.` (which
matches any character except a newline).  `subWordBounded` is `re.sub`
of a pattern wrapped in two word boundaries, replacing every
non-overlapping match (scanned left to right) with a single space. -/

/-- One atom of a regex pattern used by the source. -/
inductive RegexAtom where
  | lit (c : Char)
  | dot
  deriving Repr, DecidableEq

/-- Whether one pattern atom matches one character. -/
def atomMatches : RegexAtom → Char → Bool
  | .lit c, x => x == c
  | .dot, x => x != '\n'

/-- Python's `\w` (ASCII fragment), deciding word boundaries. -/
def isWordChar (c : Char) : Bool := c.isAlphanum || c == '_'

/-- Word-character test with "outside the string" counting as non-word. -/
def isWordOpt : Option Char → Bool
  | some c => isWordChar c
  | none => false

/-- The `\b` assertion between two adjacent positions. -/
def wordBoundary (l r : Option Char) : Bool := isWordOpt l != isWordOpt r

/-- Match a pattern at the head of the input, returning the consumed
characters and the rest. -/
def matchAtoms : List RegexAtom → List Char → Option (List Char × List Char)
  | [], rest => some ([], rest)
  | _ :: _, [] => none
  | a :: as, c :: cs =>
    if atomMatches a c then
      match matchAtoms as cs with
      | some (m, r) => some (c :: m, r)
      | none => none
    else none

/-- Worker for `subWordBounded`.  `prev` is the character of the original
string immediately before the current scan position (`re.sub` keeps
scanning the original string after a replacement).  `fuel` bounds the
recursion; every pattern the source uses is non-empty, so a fuel of
`length + 1` is never exhausted. -/
def subWBAux (pat : List RegexAtom) : Nat → Option Char → List Char → List Char
  | 0, _, s => s
  | _ + 1, _, [] => []
  | fuel + 1, prev, c :: cs =>
    match matchAtoms pat (c :: cs) with
    | some (consumed, rest) =>
      if wordBoundary prev (some c) && wordBoundary consumed.getLast? rest.head? then
        ' ' :: subWBAux pat fuel consumed.getLast? rest
      else c :: subWBAux pat fuel (some c) cs
    | none => c :: subWBAux pat fuel (some c) cs

/-- `re.sub(r"\b" + pat + r"\b", " ", s)`. -/
def subWordBounded (pat : List RegexAtom) (s : List Char) : List Char :=
  subWBAux pat (s.length + 1) none s

/-- A pattern of literal characters, e.g. `r"university"`. -/
def litPat (w : String) : List RegexAtom := w.data.map RegexAtom.lit

/-- The pattern the source builds from the list entry `"st."`: the dot is a
regex metacharacter, so it matches `st` followed by any character. -/
def stDotPat : List RegexAtom := [.lit 's', .lit 't', .dot]

/-- Python `s.replace("&", "and")`. -/
def replaceAmp (s : List Char) : List Char :=
  s.flatMap fun c => if c == '&' then ['a', 'n', 'd'] else [c]

/-- `re.sub(r"[^a-z0-9\s]", " ", s)`: keep lowercase letters, digits and
whitespace, replace everything else with a space. -/
def stripPunct (s : List Char) : List Char :=
  s.map fun c => if c.isLower || c.isDigit || isPySpace c then c else ' '

/-- `re.sub(r"\s+", " ", s)`: collapse whitespace runs to single spaces. -/
def collapseWs : List Char → List Char
  | [] => []
  | [c] => if isPySpace c then [' '] else [c]
  | c :: c2 :: cs =>
    if isPySpace c && isPySpace c2 then collapseWs (c2 :: cs)
    else (if isPySpace c then ' ' else c) :: collapseWs (c2 :: cs)

/-- `normalize_team_name`: lowercase, `&`→`and`, strip punctuation, remove
the noise words (in the source's order, including the `"st."` entry whose
dot acts as a wildcard), collapse whitespace, trim. -/
def normalize_team_name (name : String) : String :=
  if name = "" then ""
  else
    let s := (lowerStr name).data
    let s := replaceAmp s
    let s := stripPunct s
    let s := subWordBounded (litPat "university") s
    let s := subWordBounded (litPat "college") s
    let s := subWordBounded (litPat "state") s
    let s := subWordBounded (litPat "st") s
    let s := subWordBounded stDotPat s
    let s := subWordBounded (litPat "the") s
    let s := subWordBounded (litPat "of") s
    ⟨trimChars (collapseWs s)⟩

/-- Python `s.split()`: split on whitespace runs, dropping empty pieces.
`acc` holds the characters of the token currently being read, reversed. -/
def wsTokensAux : List Char → List Char → List (List Char)
  | [], acc => if acc.isEmpty then [] else [acc.reverse]
  | c :: cs, acc =>
    if isPySpace c then
      if acc.isEmpty then wsTokensAux cs [] else acc.reverse :: wsTokensAux cs []
    else wsTokensAux cs (c :: acc)

/-- Python `s.split()` on a string. -/
def wsTokens (s : String) : List (List Char) := wsTokensAux s.data []

/-- `teams_match_name`: normalize both names, then substring either way,
then at least two common tokens. -/
def teams_match_name (ncaa_name odds_name : String) : Bool :=
  let a := normalize_team_name ncaa_name
  let b := normalize_team_name odds_name
  if a = "" || b = "" then false
  else if strContains b a || strContains a b then true
  else decide (2 ≤ ((wsTokens a).toFinset ∩ (wsTokens b).toFinset).card)

/-! ### Odds API model, event pairing and total extraction -/

/-- One outcome inside a market. -/
structure OddsOutcome where
  point : Option ℚ := none
  deriving Repr, DecidableEq

/-- One market of a bookmaker. -/
structure OddsMarket where
  key : Option String := none
  outcomes : List OddsOutcome := []
  deriving Repr, DecidableEq

/-- One bookmaker quote of a market event. -/
structure Bookmaker where
  key : Option String := none
  title : Option String := none
  markets : List OddsMarket := []
  deriving Repr, DecidableEq

/-- One Odds API event. -/
structure OddsEvent where
  home_team : String := ""
  away_team : String := ""
  bookmakers : List Bookmaker := []
  deriving Repr, DecidableEq

/-- Bookmaker priority: DK, FD, BetMGM, then the rest. -/
def BOOKMAKER_PRIORITY : List String :=
  ["draftkings", "fanduel", "betmgm", "betonlineag", "pointsbetus",
   "caesars", "betrivers", "unibet_us", "wynnbet", "barstool"]

/-- `find_matching_odds_event`: first event matching on the normal
alignment or on the swapped alignment.  Missing name variants are
modelled as `""`; the source's `if n` generator filter and `""` are
interchangeable since an empty name never matches. -/
def find_matching_odds_event (odds_games : List OddsEvent)
    (ncaa_home_names ncaa_away_names : List String) : Option OddsEvent :=
  match odds_games with
  | [] => none
  | event :: rest =>
    let home_ok := ncaa_home_names.any fun n => n ≠ "" && teams_match_name n event.home_team
    let away_ok := ncaa_away_names.any fun n => n ≠ "" && teams_match_name n event.away_team
    if home_ok && away_ok then some event
    else
      let home_ok_swapped := ncaa_home_names.any fun n => n ≠ "" && teams_match_name n event.away_team
      let away_ok_swapped := ncaa_away_names.any fun n => n ≠ "" && teams_match_name n event.home_team
      if home_ok_swapped && away_ok_swapped then some event
      else find_matching_odds_event rest ncaa_home_names ncaa_away_names

/-- Lookup in `bm_by_key = {bm.get("key"): bm for bm in bookmakers}`:
with duplicate keys the later entry wins, so search the reversed list. -/
def bmLookup (bms : List Bookmaker) (k : String) : Option Bookmaker :=
  bms.reverse.find? fun bm => bm.key == some k

/-- `bm.get("title") or key`. -/
def titleOrKey (bm : Bookmaker) (k : String) : String :=
  pyOrStr bm.title k

/-- Scan one bookmaker's markets for a `totals` market whose first outcome
carries a non-null `point`. -/
def scanTotals (bm : Bookmaker) (k : String) : List OddsMarket → Option (ℚ × String)
  | [] => none
  | m :: ms =>
    if m.key == some "totals" then
      match m.outcomes with
      | [] => scanTotals bm k ms
      | o :: _ =>
        match o.point with
        | some p => some (p, titleOrKey bm k)
        | none => scanTotals bm k ms
    else scanTotals bm k ms

/-- Walk the priority list, trying each present bookmaker in turn. -/
def extractAux (bms : List Bookmaker) : List String → Option ℚ × Option String
  | [] => (none, none)
  | k :: ks =>
    match bmLookup bms k with
    | none => extractAux bms ks
    | some bm =>
      match scanTotals bm k bm.markets with
      | some (p, t) => (some p, some t)
      | none => extractAux bms ks

/-- `extract_full_game_total_with_book`. -/
def extract_full_game_total_with_book (event : OddsEvent) : Option ℚ × Option String :=
  extractAux event.bookmakers BOOKMAKER_PRIORITY

/-! ### Play-by-play fetch and the dashboard row builder
`get_game_play_by_play` wraps only the HTTP get and the status check in
`try/except`; `resp.json()` runs after that block, so a parse failure
propagates to the caller.  The network is modelled by attaching to each
game the outcome of fetching its play-by-play URL: a transport/status
failure, or a body given by its parse result (`none` = body that is not
valid JSON, `nonDict` = JSON that is not an object). -/

/-- Parse result of a fetched body. -/
inductive PbpJson where
  | dict (d : PbpData)
  | nonDict
  deriving Repr, DecidableEq

/-- Outcome of the HTTP get for a game's play-by-play URL. -/
inductive Fetched where
  | failed
  | succeeded (parsed : Option PbpJson)
  deriving Repr, DecidableEq

/-- `get_game_play_by_play`.  `.error` models an exception escaping the
function (the `resp.json()` call sits outside the `try` block). -/
def get_game_play_by_play (game_url_path : Option String) (resp : Fetched) :
    Except String (Option PbpData) :=
  if game_url_path.getD "" = "" then .ok none
  else
    match resp with
    | .failed => .ok none
    | .succeeded none => .error "JSONDecodeError"
    | .succeeded (some .nonDict) => .ok none
    | .succeeded (some (.dict d)) => .ok (some d)

/-- The `names` dictionary of one side of a scoreboard game. -/
structure GameNames where
  short : Option String := none
  full : Option String := none
  char6 : Option String := none
  seo : Option String := none
  deriving Repr, DecidableEq

/-- One scoreboard game, with the fetch outcome of its play-by-play URL
attached as the model of the network. -/
structure Game where
  awayNames : GameNames := {}
  homeNames : GameNames := {}
  gameState : Option String := none
  currentPeriod : Option String := none
  url : Option String := none
  hasPbp : Option Bool := none
  pbpResponse : Fetched := .failed
  deriving Repr, DecidableEq

/-- One output row of `build_dashboard_rows`. -/
structure Row where
  matchup : String
  state : String
  period : String
  integer : Option ℚ := none
  fga : Option Nat := none
  fta : Option Nat := none
  toCount : Option Nat := none
  half_score : Option String := none
  full_game_total : Option ℚ := none
  full_game_book : Option String := none
  derived_2h_line : Option ℚ := none
  qualifies : Option Bool := none
  leanDir : Option String := none
  diff_line : Option ℚ := none
  score_diff : Option ℚ := none
  deriving Repr, DecidableEq

/-- The first-half / halftime filter of `build_dashboard_rows`, applied to
the cleaned period label. -/
def isShownPeriod (period_clean : String) : Bool :=
  (strContains period_clean "1"
    && !strContains period_clean "FINAL"
    && !strContains period_clean "OT"
    && !strContains period_clean "HALF")
  || strContains period_clean "HALF"

/-- `period.replace(".", "").strip()` after uppercasing. -/
def cleanPeriod (period : String) : String :=
  stripStr ⟨period.data.filter fun c => c ≠ '.'⟩

/-- The body of the game loop of `build_dashboard_rows` for one game:
`.ok none` models `continue`, `.error` an escaped exception. -/
def processGame (odds_games : List OddsEvent) (g : Game) : Except String (Option Row) :=
  let away_short := pyOrStr g.awayNames.short "Away"
  let away_full := g.awayNames.full.getD ""
  let away_char6 := g.awayNames.char6.getD ""
  let away_seo := g.awayNames.seo.getD ""
  let home_short := pyOrStr g.homeNames.short "Home"
  let home_full := g.homeNames.full.getD ""
  let home_char6 := g.homeNames.char6.getD ""
  let home_seo := g.homeNames.seo.getD ""
  let state := upperStr (pyOrStr g.gameState "")
  let period := upperStr (pyOrStr g.currentPeriod "")
  let period_clean := cleanPeriod period
  if !isShownPeriod period_clean then .ok none
  else
    let stats1hE : Except String (Option HalfStats) :=
      if g.hasPbp.getD true then
        match get_game_play_by_play g.url g.pbpResponse with
        | .error e => .error e
        | .ok pbp => .ok (pbp.bind compute_first_half_stats_from_pbp)
      else .ok none
    match stats1hE with
    | .error e => .error e
    | .ok stats_1h =>
    let odds_event := find_matching_odds_event odds_games
      [home_short, home_full, home_char6, home_seo]
      [away_short, away_full, away_char6, away_seo]
    let (full_game_total, full_game_book) :=
      match odds_event with
      | some ev => extract_full_game_total_with_book ev
      | none => (none, none)
    let derived_2h_line : Option ℚ :=
      match stats_1h, full_game_total with
      | some st, some t => some (t - ((st.home_pts_1h : ℚ) + (st.away_pts_1h : ℚ)))
      | _, _ => none
    let eval_result : Option EvalResult :=
      match stats_1h, derived_2h_line with
      | some st, some d =>
        some (evaluate_bet st.integer (st.home_pts_1h : ℚ) (st.away_pts_1h : ℚ) d)
      | _, _ => none
    .ok (some
      { matchup := away_short ++ " @ " ++ home_short
        state := state
        period := period
        integer := stats_1h.map HalfStats.integer
        fga := stats_1h.map HalfStats.fga
        fta := stats_1h.map HalfStats.fta
        toCount := stats_1h.map HalfStats.turnovers
        half_score := stats_1h.map fun st =>
          toString st.away_pts_1h ++ "-" ++ toString st.home_pts_1h
        full_game_total := full_game_total
        full_game_book := full_game_book
        derived_2h_line := derived_2h_line
        qualifies := eval_result.map EvalResult.qualifies
        leanDir := eval_result.map EvalResult.lean
        diff_line := eval_result.map EvalResult.diff_line
        score_diff := eval_result.map EvalResult.score_diff })

/-- The game loop of `build_dashboard_rows`, given the already-fetched
scoreboard games and odds events.  An exception escaping one game's
processing aborts the whole loop (there is no per-game handler). -/
def build_dashboard_rows (games : List Game) (odds_games : List OddsEvent) :
    Except String (List Row) :=
  match games with
  | [] => .ok []
  | g :: gs =>
    match processGame odds_games g with
    | .error e => .error e
    | .ok r? =>
      match build_dashboard_rows gs odds_games with
      | .error e => .error e
      | .ok rest => .ok (match r? with | some r => r :: rest | none => rest)

/-! ### Spec-side comparison definitions
These follow the wording of the specification (not the source) and are
used to state refinement claims about the source functions above. -/

/-- Spec wording of the free-throw attempt count (C4): the two
three-free-throw branches of the source are merged into one. -/
def specFreeThrowCount (dl : String) : Nat :=
  if strContains dl "both free throws" then 2
  else if strContains dl "all three free throws" || strContains dl "all 3 free throws"
      || strContains dl "three free throws" || strContains dl "3 free throws" then 3
  else if strContains dl "two free throws" || strContains dl "2 free throws" then 2
  else 1

/-- The noise tokens the spec says are removed by the normalizer (C5). -/
def specNoiseTokens : List String :=
  ["university", "college", "state", "st", "the", "of"]

/-- Spec wording of `normalize_team_name` (C5): lowercase, `&`→`and`,
strip punctuation, then remove, as whole words, exactly the noise tokens
and no other tokens, collapse whitespace and trim (expressed by token
filtering and re-joining with single spaces). -/
def specNormalize (name : String) : String :=
  let toks := wsTokensAux (stripPunct (replaceAmp (lowerStr name).data)) []
  let kept := toks.filter fun t => !((specNoiseTokens.map String.data).contains t)
  ⟨List.intercalate [' '] kept⟩

/-- Spec wording (C7): some non-empty variant matches the given team name. -/
def VariantMatches (names : List String) (team : String) : Prop :=
  ∃ n ∈ names, n ≠ "" ∧ teams_match_name n team = true

/-- Spec wording (C7): normal alignment, or swapped alignment. -/
def EventQualifies (home_names away_names : List String) (ev : OddsEvent) : Prop :=
  (VariantMatches home_names ev.home_team ∧ VariantMatches away_names ev.away_team)
  ∨ (VariantMatches home_names ev.away_team ∧ VariantMatches away_names ev.home_team)

/-- Boolean form of `EventQualifies`, mirroring the checks of the source. -/
def eventQualB (home_names away_names : List String) (ev : OddsEvent) : Bool :=
  ((home_names.any fun n => n ≠ "" && teams_match_name n ev.home_team) &&
   (away_names.any fun n => n ≠ "" && teams_match_name n ev.away_team)) ||
  ((home_names.any fun n => n ≠ "" && teams_match_name n ev.away_team) &&
   (away_names.any fun n => n ≠ "" && teams_match_name n ev.home_team))

/-! ### Concrete fixtures used by witnesses and counterexamples -/

/-- A totals market quoting one point value. -/
def totalsMarket (p : ℚ) : OddsMarket :=
  { key := some "totals", outcomes := [{ point := some p }] }

/-- DraftKings quoting a full-game total of 145. -/
def draftkingsBm : Bookmaker :=
  { key := some "draftkings", title := some "DraftKings", markets := [totalsMarket 145] }

/-- FanDuel quoting a full-game total of 144.5. -/
def fanduelBm : Bookmaker :=
  { key := some "fanduel", title := some "FanDuel", markets := [totalsMarket (289 / 2)] }

/-- A second DraftKings quote (duplicate key) with a different total. -/
def dkAlt : Bookmaker :=
  { key := some "draftkings", title := some "DraftKings", markets := [totalsMarket 144] }

/-- The spec's market-extraction example: FanDuel listed first. -/
def evC6Example : OddsEvent := { bookmakers := [fanduelBm, draftkingsBm] }

/-- The same example with the bookmaker list reordered. -/
def evC6ExampleSwapped : OddsEvent := { bookmakers := [draftkingsBm, fanduelBm] }

/-- An event with two bookmakers sharing the key `draftkings`. -/
def evDup1 : OddsEvent := { bookmakers := [draftkingsBm, dkAlt] }

/-- `evDup1` with its bookmaker list reversed. -/
def evDup2 : OddsEvent := { bookmakers := [dkAlt, draftkingsBm] }

/-- A market event for Duke at home against North Carolina. -/
def evDuke : OddsEvent :=
  { home_team := "Duke Blue Devils", away_team := "North Carolina Tar Heels" }

/-- A first-half game whose play-by-play body fails to parse as JSON. -/
def gParseBug : Game :=
  { currentPeriod := some "1st", url := some "/game/bad", hasPbp := some true,
    pbpResponse := .succeeded none }

/-- A first-half game with a healthy (empty) period-1 play-by-play. -/
def gHealthy : Game :=
  { currentPeriod := some "1st", url := some "/game/good", hasPbp := some true,
    pbpResponse := .succeeded (some (.dict
      { periods := [{ periodNumber := some 1, playbyplayStats := [] }] })) }

/-- A game whose period label contains both FINAL and 1. -/
def gFinal1 : Game := { currentPeriod := some "Final 1st" }

/-- A game whose period label contains both HALF and OT. -/
def gHalfOT : Game := { currentPeriod := some "Halftime OT" }

/-- The row built for `gHalfOT`: only scoreboard-derived fields are set. -/
def rowHalfOT : Row :=
  { matchup := "Away @ Home", state := "", period := "HALFTIME OT" }

/-! ### Theorems -/

/-- C1: `evaluate_bet` returns `qualifies = true` exactly when the absolute
difference between the integer value and the derived second-half line is at
least 6 and the first-half score difference is below 11; its direction is
OVER when the integer value exceeds the line, UNDER when it is below, and
NEUTRAL when they are equal; and with a line difference below 6 the result
never qualifies. -/
theorem claim_C1 (iv h a line : ℚ) :
    ((evaluate_bet iv h a line).qualifies = true ↔ 6 ≤ |iv - line| ∧ |h - a| < 11)
    ∧ (iv > line → EvalResult.lean (evaluate_bet iv h a line) = "OVER")
    ∧ (iv < line → EvalResult.lean (evaluate_bet iv h a line) = "UNDER")
    ∧ (iv = line → EvalResult.lean (evaluate_bet iv h a line) = "NEUTRAL")
    ∧ (|iv - line| < 6 → (evaluate_bet iv h a line).qualifies = false) := by
  unfold evaluate_bet
  refine ⟨by simp, ?_, ?_, ?_, ?_⟩
  · intro hgt; simp [hgt]
  · intro hlt; simp [if_neg (not_lt.mpr (le_of_lt hlt)), hlt]
  · intro heq; simp [heq]
  · intro hlt; simp [not_le.mpr hlt]

/-- C1 witness: the spec's worked example (integer 60, line 52, first-half
score 30-34) qualifies and leans OVER. -/
theorem claim_C1_witness :
    (evaluate_bet 60 30 34 52).qualifies = true
    ∧ EvalResult.lean (evaluate_bet 60 30 34 52) = "OVER" :=
  ⟨(claim_C1 60 30 34 52).1.mpr (by norm_num),
   (claim_C1 60 30 34 52).2.1 (by norm_num)⟩

/-- C2 counterexample: the description "Turnover by Smith on the Jumper"
increments both the field-goal-attempt counter and the turnover counter in
one aggregation step, so a single description can produce two of the three
classifications. -/
theorem claim_C2_counterexample :
    (stepPlay ⟨0, 0, 0, 0, 0⟩
      { eventDescription := some "Turnover by Smith on the Jumper" }).fga = 1
    ∧ (stepPlay ⟨0, 0, 0, 0, 0⟩
      { eventDescription := some "Turnover by Smith on the Jumper" }).turnovers = 1 :=
  ⟨rfl, rfl⟩

/-- C2 (amended): the free-throw and field-goal-attempt classifications are
mutually exclusive (free throws are checked first and exclude field-goal
matching); the turnover check is independent and may fire together with
either of them. -/
theorem claim_C2_amended (dl : String) : ftaInc dl = 0 ∨ fgaInc dl = 0 := by
  unfold ftaInc fgaInc
  cases hft : strContains dl "free throw" with
  | false => left; simp [hft]
  | true => right; simp [hft]

/-- C4: for a description containing "free throw", the free-throw attempt
increment is 2 for "both free throws", else 3 for the four three-free-throw
phrasings, else 2 for the two two-free-throw phrasings, else 1. -/
theorem claim_C4 (dl : String) (hft : strContains dl "free throw" = true) :
    ftaInc dl = specFreeThrowCount dl := by
  unfold ftaInc specFreeThrowCount freeThrowCount
  simp only [hft, if_true]
  cases h1 : strContains dl "both free throws" <;>
    cases h2 : strContains dl "all three free throws" <;>
    cases h3 : strContains dl "all 3 free throws" <;>
    cases h4 : strContains dl "three free throws" <;>
    cases h5 : strContains dl "3 free throws" <;>
    simp [h1, h2, h3, h4, h5]

/-- C4 witness: "Smith makes both free throws" contains "free throw" and is
counted as 2 attempts, as the spec's rule table demands. -/
theorem claim_C4_witness :
    strContains (lowerStr "Smith makes both free throws") "free throw" = true
    ∧ ftaInc (lowerStr "Smith makes both free throws")
      = specFreeThrowCount (lowerStr "Smith makes both free throws") :=
  ⟨by decide, claim_C4 _ (by decide)⟩

/-- C5: the code at the failing input.  The list entry `"st."` is used
unescaped as a regex, so its dot matches any character: the token "stu" is
removed even though it is not one of the six noise tokens, while the
spec-described normalizer keeps it.  The spec's Ohio State instance holds. -/
theorem claim_C5_eval :
    normalize_team_name "stu abc" = "abc"
    ∧ specNormalize "stu abc" = "stu abc"
    ∧ normalize_team_name "Ohio State University" = "ohio" :=
  ⟨rfl, rfl, rfl⟩

/-- C3: the code at the failing input.  `resp.json()` sits outside the
`try` block of `get_game_play_by_play`, so a body that fails to parse
raises past the function, and `build_dashboard_rows` has no per-game
handler: the whole cycle aborts and the healthy game's row is lost. -/
theorem claim_C3_eval :
    get_game_play_by_play (some "/game/bad") (.succeeded none) = .error "JSONDecodeError"
    ∧ build_dashboard_rows [gHealthy, gParseBug] [] = .error "JSONDecodeError"
    ∧ (build_dashboard_rows [gHealthy] []).toOption.map List.length = some 1 :=
  ⟨rfl, rfl, rfl⟩

/-- C8 counterexample: the game `gHalfOT` has period label "HALFTIME OT",
whose cleaned form contains "OT", yet a row is built for it (the halftime
branch of the filter admits it). -/
theorem claim_C8_counterexample :
    strContains (cleanPeriod (upperStr (pyOrStr gHalfOT.currentPeriod ""))) "OT" = true
    ∧ build_dashboard_rows [gHalfOT] [] = .ok [rowHalfOT] :=
  ⟨rfl, rfl⟩

/-- Helper: prepending to a list shifts the default of `getLast?.getD`. -/
theorem getLastD_cons : ∀ (l : List Int) (a d : Int),
    ((a :: l).getLast?).getD d = (l.getLast?).getD a
  | [], _, _ => rfl
  | b :: t, a, d => by
    rw [List.getLast?_cons_cons]
    exact (getLastD_cons t b d).trans (getLastD_cons t b a).symm

/-- Helper: the running home score after the play walk is the last present
`homeScore` field, or the initial value when no play carries one. -/
theorem foldl_lastHome : ∀ (plays : List Play) (st : AggState),
    (plays.foldl stepPlay st).lastHome
      = ((plays.filterMap Play.homeScore).getLast?).getD st.lastHome
  | [], _ => rfl
  | p :: ps, st => by
    rw [List.foldl_cons, foldl_lastHome ps (stepPlay st p)]
    cases hp : p.homeScore with
    | none => simp [List.filterMap_cons, hp, stepPlay]
    | some v => simp [List.filterMap_cons, hp, stepPlay, getLastD_cons]

/-- Helper: same for the running visitor score. -/
theorem foldl_lastVisitor : ∀ (plays : List Play) (st : AggState),
    (plays.foldl stepPlay st).lastVisitor
      = ((plays.filterMap Play.visitorScore).getLast?).getD st.lastVisitor
  | [], _ => rfl
  | p :: ps, st => by
    rw [List.foldl_cons, foldl_lastVisitor ps (stepPlay st p)]
    cases hp : p.visitorScore with
    | none => simp [List.filterMap_cons, hp, stepPlay]
    | some v => simp [List.filterMap_cons, hp, stepPlay, getLastD_cons]

/-- C9: the aggregator's running scores start at 0 and carry forward past
plays without a score field, and the returned `HalfStats` reports the
last-seen values: each reported score equals the last present score field
of the play sequence, or 0 when none is present. -/
theorem claim_C9 (plays : List Play) :
    (computeStats plays).home_pts_1h
      = ((plays.filterMap Play.homeScore).getLast?).getD 0
    ∧ (computeStats plays).away_pts_1h
      = ((plays.filterMap Play.visitorScore).getLast?).getD 0 :=
  ⟨foldl_lastHome plays ⟨0, 0, 0, 0, 0⟩, foldl_lastVisitor plays ⟨0, 0, 0, 0, 0⟩⟩

/-- C10: `teams_match_name` is symmetric: substring containment is tested
in both directions and token-set intersection is commutative. -/
theorem claim_C10 (a b : String) : teams_match_name a b = teams_match_name b a := by
  unfold teams_match_name
  by_cases h1 : normalize_team_name a = "" <;> by_cases h2 : normalize_team_name b = "" <;>
    simp [h1, h2, Bool.or_comm, Finset.inter_comm]

/-- Helper: a game whose cleaned period label fails the first-half and
halftime checks is skipped by the loop body. -/
theorem processGame_none_of_hidden (odds : List OddsEvent) (g : Game)
    (h : isShownPeriod (cleanPeriod (upperStr (pyOrStr g.currentPeriod ""))) = false) :
    processGame odds g = .ok none := by
  unfold processGame
  simp [h]

/-- Helper: a skipped game contributes nothing to the built rows. -/
theorem build_skip (odds : List OddsEvent) (g : Game)
    (h : processGame odds g = .ok none) :
    ∀ l1 l2, build_dashboard_rows (l1 ++ g :: l2) odds
      = build_dashboard_rows (l1 ++ l2) odds := by
  intro l1
  induction l1 with
  | nil =>
    intro l2
    cases hb : build_dashboard_rows l2 odds with
    | error e => simp [build_dashboard_rows, h, hb]
    | ok rest => simp [build_dashboard_rows, h, hb]
  | cons g0 l1 ih =>
    intro l2
    cases hp : processGame odds g0 with
    | error e => simp [build_dashboard_rows, hp]
    | ok r? => simp [build_dashboard_rows, hp, ih l2]

/-- C8 (amended): a game whose period label (uppercased, periods removed)
contains "FINAL" or "OT" is excluded from the built rows even if it also
contains "1", unless the label also contains "HALF", in which case the
halftime branch of the filter includes it. -/
theorem claim_C8_amended (g : Game) (odds : List OddsEvent) (l1 l2 : List Game)
    (hfo : strContains (cleanPeriod (upperStr (pyOrStr g.currentPeriod ""))) "FINAL" = true
         ∨ strContains (cleanPeriod (upperStr (pyOrStr g.currentPeriod ""))) "OT" = true)
    (hhalf : strContains (cleanPeriod (upperStr (pyOrStr g.currentPeriod ""))) "HALF" = false) :
    build_dashboard_rows (l1 ++ g :: l2) odds = build_dashboard_rows (l1 ++ l2) odds := by
  have hshow : isShownPeriod (cleanPeriod (upperStr (pyOrStr g.currentPeriod ""))) = false := by
    unfold isShownPeriod
    rcases hfo with hf | ho
    · simp [hf, hhalf]
    · simp [ho, hhalf]
  exact build_skip odds g (processGame_none_of_hidden odds g hshow) l1 l2

/-- C8 witness: the game with period label "Final 1st" produces no row. -/
theorem claim_C8_witness : build_dashboard_rows [gFinal1] [] = .ok [] :=
  (claim_C8_amended gFinal1 [] [] [] (Or.inl rfl) rfl).trans rfl

/-- Helper: Boolean/existential bridge for the variant-match `any`. -/
theorem any_variant_iff (names : List String) (team : String) :
    (names.any fun n => n ≠ "" && teams_match_name n team) = true
      ↔ VariantMatches names team := by
  simp [List.any_eq_true, VariantMatches, Bool.and_eq_true, decide_eq_true_eq]

/-- Helper: Boolean/propositional bridge for event qualification. -/
theorem eventQualB_iff (h a : List String) (ev : OddsEvent) :
    eventQualB h a ev = true ↔ EventQualifies h a ev := by
  unfold eventQualB EventQualifies
  simp [Bool.or_eq_true, Bool.and_eq_true, any_variant_iff, VariantMatches]

/-- Helper: the nested checks of `find_matching_odds_event` collapse to one
qualification test per event. -/
theorem fmoe_cons (ev : OddsEvent) (rest : List OddsEvent) (h a : List String) :
    find_matching_odds_event (ev :: rest) h a
      = if eventQualB h a ev then some ev else find_matching_odds_event rest h a := by
  have key : ∀ (c1 c2 : Bool) (x y : Option OddsEvent),
      (if c1 then x else if c2 then x else y) = (if c1 || c2 then x else y) := by
    intro c1 c2 x y
    cases c1 <;> cases c2 <;> simp
  simp only [find_matching_odds_event, eventQualB]
  exact key _ _ _ _

/-- C7: `find_matching_odds_event` returns `none` exactly when no event
qualifies under the normal or swapped alignment, and a returned event
qualifies and is the first qualifying event in source order (every earlier
event fails to qualify). -/
theorem claim_C7 (odds : List OddsEvent) (h a : List String) :
    (find_matching_odds_event odds h a = none ↔ ∀ ev ∈ odds, ¬ EventQualifies h a ev)
    ∧ (∀ e, find_matching_odds_event odds h a = some e →
        EventQualifies h a e
        ∧ ∃ pre post, odds = pre ++ e :: post ∧ ∀ ev ∈ pre, ¬ EventQualifies h a ev) := by
  induction odds with
  | nil =>
    refine ⟨by simp [find_matching_odds_event], ?_⟩
    intro e he
    simp [find_matching_odds_event] at he
  | cons ev rest ih =>
    by_cases hq : eventQualB h a ev = true
    · rw [fmoe_cons, if_pos hq]
      have hqe : EventQualifies h a ev := (eventQualB_iff h a ev).mp hq
      constructor
      · constructor
        · intro hnone; simp at hnone
        · intro hall; exact absurd hqe (hall ev (List.mem_cons_self ev rest))
      · intro e he
        have : ev = e := Option.some.inj he
        subst this
        exact ⟨hqe, [], rest, rfl, by simp⟩
    · have hqf : eventQualB h a ev = false := by
        cases hb : eventQualB h a ev with
        | false => rfl
        | true => exact absurd hb hq
      have hnq : ¬ EventQualifies h a ev := fun hc => hq ((eventQualB_iff h a ev).mpr hc)
      rw [fmoe_cons, if_neg (by simp [hqf])]
      constructor
      · constructor
        · intro h0 ev' hmem
          rcases List.mem_cons.mp hmem with rfl | hm
          · exact hnq
          · exact ih.1.mp h0 ev' hm
        · intro hall
          exact ih.1.mpr fun ev' hm => hall ev' (List.mem_cons_of_mem _ hm)
      · intro e he
        obtain ⟨hqe, pre, post, heq, hpre⟩ := ih.2 e he
        refine ⟨hqe, ev :: pre, post, by simp [heq], ?_⟩
        intro ev' hm
        rcases List.mem_cons.mp hm with rfl | hm2
        · exact hnq
        · exact hpre ev' hm2

/-- C7 witness: with home variants ["Duke"] and away variants
["North Carolina"], the single Duke event is returned and qualifies, with
no earlier event skipped. -/
theorem claim_C7_witness :
    EventQualifies ["Duke"] ["North Carolina"] evDuke
    ∧ ∃ pre post, [evDuke] = pre ++ evDuke :: post
        ∧ ∀ ev ∈ pre, ¬ EventQualifies ["Duke"] ["North Carolina"] ev :=
  (claim_C7 [evDuke] ["Duke"] ["North Carolina"]).2 evDuke rfl

/-- Helper: when the first present bookmaker has a usable totals market,
the priority walk returns its quote. -/
theorem extractAux_first_present : ∀ (ks : List String) (bms : List Bookmaker)
    (k : String) (bm : Bookmaker) (p : ℚ) (t : String),
    ks.find? (fun k' => (bmLookup bms k').isSome) = some k →
    bmLookup bms k = some bm →
    scanTotals bm k bm.markets = some (p, t) →
    extractAux bms ks = (some p, some t) := by
  intro ks
  induction ks with
  | nil =>
    intro bms k bm p t hf _ _
    simp [List.find?] at hf
  | cons k0 ks ih =>
    intro bms k bm p t hf hl hs
    cases h0 : bmLookup bms k0 with
    | some bm0 =>
      have hpos := List.find?_cons_of_pos (p := fun k' => (bmLookup bms k').isSome) ks
        (a := k0) (by simp [h0])
      rw [hpos] at hf
      have hk : k0 = k := Option.some.inj hf
      subst hk
      rw [h0] at hl
      have hbm : bm0 = bm := Option.some.inj hl
      subst hbm
      simp [extractAux, h0, hs]
    | none =>
      have hneg := List.find?_cons_of_neg (p := fun k' => (bmLookup bms k').isSome) ks
        (a := k0) (by simp [h0])
      rw [hneg] at hf
      simp only [extractAux, h0]
      exact ih bms k bm p t hf hl hs

/-- Helper: `find?` is permutation-invariant when at most one element can
satisfy the predicate. -/
theorem find?_congr_of_perm_unique {α : Type} {p : α → Bool} {l l' : List α}
    (hperm : l.Perm l')
    (huniq : ∀ x ∈ l, ∀ y ∈ l, p x = true → p y = true → x = y) :
    l.find? p = l'.find? p := by
  cases hl : l.find? p with
  | none =>
    cases hl' : l'.find? p with
    | none => rfl
    | some b =>
      have hb := List.find?_some hl'
      have hmb : b ∈ l := hperm.mem_iff.mpr (List.mem_of_find?_eq_some hl')
      have := List.find?_eq_none.mp hl b hmb
      simp [hb] at this
  | some a =>
    have hpa := List.find?_some hl
    have hma := List.mem_of_find?_eq_some hl
    cases hl' : l'.find? p with
    | none =>
      have := List.find?_eq_none.mp hl' a (hperm.mem_iff.mp hma)
      simp [hpa] at this
    | some b =>
      have hpb := List.find?_some hl'
      have hmb : b ∈ l := hperm.mem_iff.mpr (List.mem_of_find?_eq_some hl')
      exact congrArg some (huniq a hma b hmb hpa hpb)

/-- Helper: with pairwise-distinct bookmaker keys, the key index is
independent of the order of the bookmaker list. -/
theorem bmLookup_congr_perm {l l' : List Bookmaker} (hp : l.Perm l')
    (nd : (l.map Bookmaker.key).Nodup) (k : String) :
    bmLookup l k = bmLookup l' k := by
  unfold bmLookup
  apply find?_congr_of_perm_unique ((l.reverse_perm.trans hp).trans l'.reverse_perm.symm)
  intro x hx y hy hpx hpy
  have hx' : x ∈ l := List.mem_reverse.mp hx
  have hy' : y ∈ l := List.mem_reverse.mp hy
  exact List.inj_on_of_nodup_map nd hx' hy'
    ((eq_of_beq hpx).trans (eq_of_beq hpy).symm)

/-- Helper: the priority walk only consults the key index. -/
theorem extractAux_lookup_congr (bms bms' : List Bookmaker)
    (h : ∀ k, bmLookup bms k = bmLookup bms' k) :
    ∀ ks, extractAux bms ks = extractAux bms' ks := by
  intro ks
  induction ks with
  | nil => rfl
  | cons k0 ks ih =>
    cases hb : bmLookup bms' k0 with
    | none => simp [extractAux, h k0, hb, ih]
    | some bm =>
      cases hs : scanTotals bm k0 bm.markets with
      | none => simp [extractAux, h k0, hb, hs, ih]
      | some pt => simp [extractAux, h k0, hb, hs]

/-- C6 (amended): `extract_full_game_total_with_book` walks the fixed
bookmaker priority list; when the first present bookmaker has a totals
market whose first outcome carries a non-null point, that point is
returned with the bookmaker's title (falling back to its key); the result
is independent of the order of the event's bookmaker list provided the
bookmaker keys are pairwise distinct; and the spec's FanDuel/DraftKings
example returns (145, DraftKings). -/
theorem claim_C6_amended :
    (∀ (ev : OddsEvent) (k : String) (bm : Bookmaker) (p : ℚ) (t : String),
      BOOKMAKER_PRIORITY.find? (fun k' => (bmLookup ev.bookmakers k').isSome) = some k →
      bmLookup ev.bookmakers k = some bm →
      scanTotals bm k bm.markets = some (p, t) →
      extract_full_game_total_with_book ev = (some p, some t))
    ∧ (∀ ev ev' : OddsEvent, ev.bookmakers.Perm ev'.bookmakers →
        (ev.bookmakers.map Bookmaker.key).Nodup →
        extract_full_game_total_with_book ev = extract_full_game_total_with_book ev')
    ∧ extract_full_game_total_with_book evC6Example = (some 145, some "DraftKings") := by
  refine ⟨?_, ?_, rfl⟩
  · intro ev k bm p t hf hl hs
    exact extractAux_first_present BOOKMAKER_PRIORITY ev.bookmakers k bm p t hf hl hs
  · intro ev ev' hp nd
    exact extractAux_lookup_congr _ _ (bmLookup_congr_perm hp nd) BOOKMAKER_PRIORITY

/-- C6 counterexample: two bookmakers sharing the key `draftkings` make the
result depend on the order of the event's bookmaker list (the key index
keeps the last occurrence), refuting unconditional order-independence. -/
theorem claim_C6_counterexample :
    evDup1.bookmakers.Perm evDup2.bookmakers
    ∧ extract_full_game_total_with_book evDup1
      ≠ extract_full_game_total_with_book evDup2 := by
  constructor
  · show ([draftkingsBm, dkAlt] : List Bookmaker).Perm [dkAlt, draftkingsBm]
    exact List.Perm.swap dkAlt draftkingsBm []
  · decide

/-- C6 witness: on the spec's example event the first present bookmaker is
DraftKings and its quote is returned, and reordering the two
distinct-keyed bookmakers does not change the result. -/
theorem claim_C6_witness :
    extract_full_game_total_with_book evC6Example = (some 145, some "DraftKings")
    ∧ extract_full_game_total_with_book evC6Example
      = extract_full_game_total_with_book evC6ExampleSwapped := by
  constructor
  · exact claim_C6_amended.1 evC6Example "draftkings" draftkingsBm 145 "DraftKings" rfl rfl rfl
  · refine claim_C6_amended.2.1 evC6Example evC6ExampleSwapped ?_ (by decide)
    show ([fanduelBm, draftkingsBm] : List Bookmaker).Perm [draftkingsBm, fanduelBm]
    exact List.Perm.swap draftkingsBm fanduelBm []

end Dashboard
